import Mathlib

/-!
Verification of the INWX external-dns webhook provider's reconciliation core.

The Go source is embedded shallowly: the registrar backend is an oracle
(a structure of pure response functions), and the provider operations are
modelled as pure functions that return the sequence of backend calls they
issue together with their result.  A slice access that can go out of bounds
in Go (a runtime panic) is modelled with Option: a run that panics yields
none in place of a result.
-/

deriving instance DecidableEq for Except

/-- Registrar record as returned by the backend (goinwx NameserverRecord):
identifier, relative name, type, content, TTL, priority.  Field Type of the
Go struct is rendered as rtype. -/
structure NameserverRecord where
  id : Int
  name : String
  rtype : String
  content : String
  ttl : Int
  priority : Int
deriving DecidableEq

/-- Record mutation request (goinwx NameserverRecordRequest restricted to the
fields this provider sets; the Go literal leaves Priority at its zero value). -/
structure NameserverRecordRequest where
  domain : String
  name : String
  rtype : String
  ttl : Int
  content : String
  priority : Int
deriving DecidableEq

/-- Endpoint of the external-dns data model: fully-qualified DNS name, record
type, TTL and the ordered list of target content values. -/
structure Endpoint where
  dnsName : String
  recordType : String
  recordTTL : Int
  targets : List String
deriving DecidableEq

/-- ChangeSet (external-dns plan.Changes): the four endpoint partitions. -/
structure Changes where
  create : List Endpoint
  updateOld : List Endpoint
  updateNew : List Endpoint
  delete : List Endpoint
deriving DecidableEq

/-- Modelled from the external-dns dependency (not part of this repository):
plan.Changes.HasChanges is true when Create or Delete is non-empty or when
UpdateNew differs from UpdateOld. -/
def hasChanges (changes : Changes) : Bool :=
  !changes.create.isEmpty || !changes.delete.isEmpty ||
    !(changes.updateNew == changes.updateOld)

/-- Backend call as issued through the AbstractClientWrapper interface. -/
inductive Call where
  | login
  | logout
  | getZones
  | getRecords (zone : String)
  | createRecord (request : NameserverRecordRequest)
  | updateRecord (recID : Int) (request : NameserverRecordRequest)
  | deleteRecord (recID : Int)
deriving DecidableEq

/-- Backend oracle: the outcome of every possible backend call.  Mutation
calls report success or failure; fetches optionally return data (none models
the error return). -/
structure Client where
  loginOk : Bool
  zonesRes : Option (List String)
  recordsRes : String → Option (List NameserverRecord)
  createOk : NameserverRecordRequest → Bool
  updateOk : Int → NameserverRecordRequest → Bool
  deleteOk : Int → Bool

/-- Go strings.HasSuffix on the character sequences of the strings. -/
def strEndsWith (s suf : String) : Bool :=
  suf.data.isSuffixOf s.data

/-- Go strings.TrimSuffix: drop suf from the end of s when it is a suffix,
otherwise return s unchanged. -/
def trimSuffix (s suf : String) : String :=
  if suf.data.isSuffixOf s.data then
    String.mk (s.data.take (s.data.length - suf.data.length))
  else s

/-- Loop body of getZone: keep the zone when it is a suffix of the name and
strictly longer than the match kept so far; the Bool records that the error
has been cleared at least once. -/
def zoneStep (name : String) (acc : String × Bool) (zone : String) : String × Bool :=
  if strEndsWith name zone ∧ acc.1.length < zone.length then (zone, true) else acc

/-- getZone of the provider: fold over the zone list keeping the longest
suffix match seen so far; the error is cleared the first time the update
condition (suffix and strictly longer than the current match) holds. -/
def getZone (zones : List String) (ep : Endpoint) : Except String String :=
  let r := zones.foldl (zoneStep ep.dnsName) ("", false)
  if r.2 then Except.ok r.1
  else Except.error ("unable find matching zone for the endpoint " ++ ep.dnsName)

/-- Matching condition of the inner loop of getRecIDs: same record type, the
target equals the record content, and the record's derived fully-qualified
name (the zone itself when the relative name is empty) equals the endpoint's
DNS name. -/
def recMatches (zone : String) (ep : Endpoint) (target : String)
    (record : NameserverRecord) : Bool :=
  ep.recordType == record.rtype && target == record.content &&
    (if record.name = "" then zone else record.name ++ "." ++ zone) == ep.dnsName

/-- getRecIDs of the provider: for every target, scan the snapshot and append
the id of every matching record; fail when the collected length differs from
the number of targets. -/
def getRecIDs (zone : String) (records : List NameserverRecord) (ep : Endpoint) :
    Except String (List Int) :=
  let recIDs := ep.targets.foldl
    (fun acc target =>
      records.foldl
        (fun acc2 record =>
          if recMatches zone ep target record then acc2 ++ [record.id] else acc2)
        acc)
    []
  if recIDs.length ≠ ep.targets.length then
    Except.error ("failed to map all endpoint targets to entries")
  else Except.ok recIDs

/-- Flattening of one zone's snapshot done by Records: every record becomes a
single-target endpoint whose name is always the dot-join of the relative name
with the zone. -/
def flattenZone (zone : String) (records : List NameserverRecord) : List Endpoint :=
  records.map (fun record =>
    ⟨record.name ++ "." ++ zone, record.rtype, record.ttl, [record.content]⟩)

/-- Per-zone loop of Records: fetch each zone's snapshot and flatten it,
stopping at the first fetch error. -/
def recordsLoop (c : Client) : List String → List Call × Except String (List Endpoint)
  | [] => ([], Except.ok [])
  | zone :: rest =>
    match c.recordsRes zone with
    | none =>
      ([Call.getRecords zone],
       Except.error ("unable to query DNS zone info for zone " ++ zone))
    | some records =>
      let r := recordsLoop c rest
      (Call.getRecords zone :: r.1, r.2.map (fun eps => flattenZone zone records ++ eps))

/-- Records of the provider: login, list zones, flatten every zone's records,
logout (deferred, so also on the error paths after login). -/
def Records (c : Client) : List Call × Except String (List Endpoint) :=
  if c.loginOk then
    match c.zonesRes with
    | none => ([Call.login, Call.getZones, Call.logout], Except.error ("failed to list zones"))
    | some zones =>
      let r := recordsLoop c zones
      (Call.login :: Call.getZones :: r.1 ++ [Call.logout], r.2)
  else ([Call.login], Except.error ("login failed"))

/-- Relative-name computation inlined in the create and update phases: empty
when the DNS name equals the zone, otherwise TrimSuffix of the dot-separated
zone suffix. -/
def relativeName (dnsName zone : String) : String :=
  if dnsName = zone then "" else trimSuffix dnsName ("." ++ zone)

/-- Record-snapshot cache of one phase: zone name to fetched snapshot. -/
def Cache : Type := List (String × List NameserverRecord)

/-- Lookup in the phase cache (Go map indexing). -/
def cacheFind : Cache → String → Option (List NameserverRecord)
  | [], _ => none
  | (k, v) :: rest, zone => if k = zone then some v else cacheFind rest zone

/-- Failure of one issued mutation call under the oracle. -/
def callFailed (c : Client) : Call → Bool
  | Call.createRecord request => !(c.createOk request)
  | Call.updateRecord recID request => !(c.updateOk recID request)
  | Call.deleteRecord recID => !(c.deleteOk recID)
  | _ => false

/-- Delete-phase work for one endpoint once its snapshot is at hand: locate
the record ids (one accumulated error on failure, and then no deletions) and
issue one delete per id. -/
def deleteWith (c : Client) (zone : String) (records : List NameserverRecord)
    (ep : Endpoint) : List Call × Nat :=
  match getRecIDs zone records ep with
  | Except.error _ => ([], 1)
  | Except.ok recIDs =>
    (recIDs.map Call.deleteRecord,
     (recIDs.filter (fun recID => !(c.deleteOk recID))).length)

/-- Delete phase for one endpoint: resolve the zone, fetch the snapshot
unless cached (a failed fetch is not cached and skips the endpoint), then
locate and delete. -/
def deleteEp (c : Client) (zones : List String) (cache : Cache) (ep : Endpoint) :
    List Call × Nat × Cache :=
  match getZone zones ep with
  | Except.error _ => ([], 1, cache)
  | Except.ok zone =>
    match cacheFind cache zone with
    | some records =>
      let r := deleteWith c zone records ep
      (r.1, r.2, cache)
    | none =>
      match c.recordsRes zone with
      | none => ([Call.getRecords zone], 1, cache)
      | some records =>
        let r := deleteWith c zone records ep
        (Call.getRecords zone :: r.1, r.2, (zone, records) :: cache)

/-- Delete phase over the Delete partition, threading the snapshot cache. -/
def deletePhase (c : Client) (zones : List String) :
    List Endpoint → Cache → List Call × Nat × Cache
  | [], cache => ([], 0, cache)
  | ep :: rest, cache =>
    let r := deleteEp c zones cache ep
    let r2 := deletePhase c zones rest r.2.2
    (r.1 ++ r2.1, r.2.1 + r2.2.1, r2.2.2)

/-- Create phase for one endpoint: resolve the zone and issue one create per
target value, in order, each failure accumulated independently. -/
def createEp (c : Client) (zones : List String) (ep : Endpoint) : List Call × Nat :=
  match getZone zones ep with
  | Except.error _ => ([], 1)
  | Except.ok zone =>
    let requests := ep.targets.map (fun target =>
      (⟨zone, relativeName ep.dnsName zone, ep.recordType, ep.recordTTL, target, 0⟩ :
        NameserverRecordRequest))
    (requests.map Call.createRecord,
     (requests.filter (fun request => !(c.createOk request))).length)

/-- Create phase over the Create partition (no snapshot cache involved). -/
def createPhase (c : Client) (zones : List String) : List Endpoint → List Call × Nat
  | [] => ([], 0)
  | ep :: rest =>
    let r := createEp c zones ep
    let r2 := createPhase c zones rest
    (r.1 ++ r2.1, r.2 + r2.2)

/-- Upper bound of the positional alignment loop of the update phase. -/
def maxLen (oldEp newEp : Endpoint) (recIDs : List Int) : Nat :=
  max (max oldEp.targets.length newEp.targets.length) recIDs.length

/-- Body of one alignment iteration: delete the j-th old record when the new
targets end before j, create from the new endpoint (new TTL) when the old
targets end before j, otherwise update the j-th record with the new content
but the old endpoint's TTL.  A record-id access beyond recIDs is none: the Go
slice access panics there. -/
def alignStep (zone name : String) (oldEp newEp : Endpoint) (recIDs : List Int)
    (j : Nat) : Option Call :=
  if newEp.targets.length ≤ j then
    (recIDs[j]?).map Call.deleteRecord
  else if oldEp.targets.length ≤ j then
    some (Call.createRecord
      ⟨zone, name, newEp.recordType, newEp.recordTTL, newEp.targets.getD j "", 0⟩)
  else
    (recIDs[j]?).map (fun recID =>
      Call.updateRecord recID
        ⟨zone, name, newEp.recordType, oldEp.recordTTL, newEp.targets.getD j "", 0⟩)

/-- Run k iterations of an alignment loop from index j; the Bool reports a
panic (an out-of-bounds access), which aborts the loop at once. -/
def alignLoop (f : Nat → Option Call) (j : Nat) : Nat → List Call × Bool
  | 0 => ([], false)
  | k + 1 =>
    match f j with
    | none => ([], true)
    | some call =>
      let r := alignLoop f (j + 1) k
      (call :: r.1, r.2)

/-- Positional alignment loop of the update phase for one pair. -/
def alignRun (zone name : String) (oldEp newEp : Endpoint) (recIDs : List Int) :
    List Call × Bool :=
  alignLoop (alignStep zone name oldEp newEp recIDs) 0 (maxLen oldEp newEp recIDs)

/-- Update-phase work for one pair once the snapshot is at hand: locate the
old endpoint's record ids (an error is accumulated and the loop still runs,
with an empty id list), then run the alignment loop; mutation failures are
counted per issued call. -/
def updatePairWith (c : Client) (zone : String) (records : List NameserverRecord)
    (oldEp newEp : Endpoint) : List Call × Nat × Bool :=
  let locator := match getRecIDs zone records oldEp with
    | Except.error _ => (([] : List Int), 1)
    | Except.ok recIDs => (recIDs, 0)
  let name := relativeName newEp.dnsName zone
  let r := alignRun zone name oldEp newEp locator.1
  (r.1, locator.2 + (r.1.filter (callFailed c)).length, r.2)

/-- Update phase for one pair: resolve the old endpoint's zone, fetch the
snapshot unless cached (a failed fetch is not cached and skips the pair),
then align. -/
def updatePair (c : Client) (zones : List String) (cache : Cache)
    (oldEp newEp : Endpoint) : List Call × Nat × Cache × Bool :=
  match getZone zones oldEp with
  | Except.error _ => ([], 1, cache, false)
  | Except.ok zone =>
    match cacheFind cache zone with
    | some records =>
      let r := updatePairWith c zone records oldEp newEp
      (r.1, r.2.1, cache, r.2.2)
    | none =>
      match c.recordsRes zone with
      | none => ([Call.getRecords zone], 1, cache, false)
      | some records =>
        let r := updatePairWith c zone records oldEp newEp
        (Call.getRecords zone :: r.1, r.2.1, (zone, records) :: cache, r.2.2)

/-- Update phase over the paired UpdateOld/UpdateNew partitions, threading a
cache of its own; a panic in one pair aborts the whole remainder. -/
def updatePhase (c : Client) (zones : List String) :
    List Endpoint → List Endpoint → Cache → List Call × Nat × Bool
  | [], _, _ => ([], 0, false)
  | _ :: _, [], _ => ([], 0, true)
  | oldEp :: oldRest, newEp :: newRest, cache =>
    let r := updatePair c zones cache oldEp newEp
    if r.2.2.2 then (r.1, r.2.1, true)
    else
      let r2 := updatePhase c zones oldRest newRest r.2.2.1
      (r.1 ++ r2.1, r.2.1 + r2.2.1, r2.2.2)

/-- ApplyChanges of the provider: nothing at all when the change set is
empty; otherwise login, list zones, run the Delete, Create and Update phases
in that order (each failure accumulated), logout, and fail with the error
count when any step failed.  The result is none when the update phase
panicked. -/
def ApplyChanges (c : Client) (changes : Changes) :
    List Call × Option (Except String Unit) :=
  if hasChanges changes then
    if c.loginOk then
      match c.zonesRes with
      | none =>
        ([Call.login, Call.getZones, Call.logout],
         some (Except.error ("failed to list zones")))
      | some zones =>
        let d := deletePhase c zones changes.delete []
        let cr := createPhase c zones changes.create
        let u := updatePhase c zones changes.updateOld changes.updateNew []
        let calls := Call.login :: Call.getZones :: (d.1 ++ cr.1 ++ u.1) ++ [Call.logout]
        if u.2.2 then (calls, none)
        else
          let n := d.2.1 + cr.2 + u.2.1
          (calls,
           some (if 0 < n then
              Except.error ("encountered " ++ toString n ++ " errors while applying changes")
            else Except.ok ()))
    else ([Call.login], some (Except.error ("login failed")))
  else ([], some (Except.ok ()))

/-! ## Specification-side definitions

These re-state, in the words of the specification, what the operations
above are claimed to compute; the theorems below relate them to the
embedded source functions. -/

/-- Collected record identifiers as the specification words it: for each
target value in order, the identifier of every snapshot record (in scan
order) that matches it. -/
def collectIDs (zone : String) (records : List NameserverRecord) (ep : Endpoint) :
    List Int :=
  (ep.targets.map (fun target =>
    (records.filter (recMatches zone ep target)).map NameserverRecord.id)).flatten

/-- Failure count the Delete phase is specified to accumulate for one
endpoint, evaluated against the oracle directly (no cache). -/
def specDeleteErrs (c : Client) (zones : List String) (ep : Endpoint) : Nat :=
  match getZone zones ep with
  | Except.error _ => 1
  | Except.ok zone =>
    match c.recordsRes zone with
    | none => 1
    | some records => (deleteWith c zone records ep).2

/-- Failure count the Create phase is specified to accumulate for one
endpoint. -/
def specCreateErrs (c : Client) (zones : List String) (ep : Endpoint) : Nat :=
  (createEp c zones ep).2

/-- Failure count the Update phase is specified to accumulate for one pair,
evaluated against the oracle directly (no cache). -/
def specUpdateErrs (c : Client) (zones : List String) (oldEp newEp : Endpoint) : Nat :=
  match getZone zones oldEp with
  | Except.error _ => 1
  | Except.ok zone =>
    match c.recordsRes zone with
    | none => 1
    | some records => (updatePairWith c zone records oldEp newEp).2.1

/-- Total failure count of one ApplyChanges call as specified: every
per-endpoint and per-operation failure of every phase, each counted
independently of the others. -/
def specErrCount (c : Client) (zones : List String) (changes : Changes) : Nat :=
  (changes.delete.map (specDeleteErrs c zones)).sum +
    (changes.create.map (specCreateErrs c zones)).sum +
    ((changes.updateOld.zip changes.updateNew).map
      (fun p => specUpdateErrs c zones p.1 p.2)).sum

/-- Number of getRecords calls for one zone in a call trace. -/
def countFetch (zone : String) (calls : List Call) : Nat :=
  (calls.filter (fun call => call = Call.getRecords zone)).length

/-- Soundness of a phase cache with respect to the oracle: every cached
snapshot is what the oracle returns for that zone. -/
def CacheOk (c : Client) (cache : Cache) : Prop :=
  ∀ zone records, cacheFind cache zone = some records → c.recordsRes zone = some records

/-! ## Helper lemmas -/

theorem foldl_recMatches (zone : String) (ep : Endpoint) (target : String) :
    ∀ (records : List NameserverRecord) (acc : List Int),
      records.foldl
        (fun acc2 record =>
          if recMatches zone ep target record then acc2 ++ [record.id] else acc2)
        acc
      = acc ++ (records.filter (recMatches zone ep target)).map NameserverRecord.id := by
  intro records
  induction records with
  | nil => intro acc; simp
  | cons record rest ih =>
    intro acc
    by_cases h : recMatches zone ep target record
    · simp [List.filter_cons, h, ih]
    · simp [List.filter_cons, h, ih]

theorem foldl_targets (zone : String) (records : List NameserverRecord) (ep : Endpoint) :
    ∀ (targets : List String) (acc : List Int),
      targets.foldl
        (fun acc target =>
          records.foldl
            (fun acc2 record =>
              if recMatches zone ep target record then acc2 ++ [record.id] else acc2)
            acc)
        acc
      = acc ++ (targets.map (fun target =>
          (records.filter (recMatches zone ep target)).map NameserverRecord.id)).flatten := by
  intro targets
  induction targets with
  | nil => intro acc; simp
  | cons target rest ih =>
    intro acc
    rw [List.foldl_cons, ih]
    simp [foldl_recMatches, List.append_assoc]

/-- getRecIDs computes exactly the specification's collected id sequence,
guarded by the length check. -/
theorem getRecIDs_eq (zone : String) (records : List NameserverRecord) (ep : Endpoint) :
    getRecIDs zone records ep =
      if (collectIDs zone records ep).length = ep.targets.length then
        Except.ok (collectIDs zone records ep)
      else Except.error ("failed to map all endpoint targets to entries") := by
  unfold getRecIDs collectIDs
  rw [foldl_targets]
  simp only [List.nil_append]
  by_cases h :
      ((ep.targets.map (fun target =>
        (records.filter (recMatches zone ep target)).map NameserverRecord.id)).flatten).length
      = ep.targets.length
  · simp [h]
  · simp [h]

theorem sum_le_of_bounded : ∀ {l : List Nat}, (∀ x ∈ l, x ≤ 1) → l.sum ≤ l.length := by
  intro l
  induction l with
  | nil => intro _; simp
  | cons a rest ih =>
    intro h
    have ha : a ≤ 1 := h a (List.mem_cons_self a rest)
    have hr := ih (fun x hx => h x (List.mem_cons_of_mem a hx))
    simp only [List.sum_cons, List.length_cons]
    omega

theorem sum_lt_of_bounded : ∀ {l : List Nat}, (∀ x ∈ l, x ≤ 1) → (∃ x ∈ l, x = 0) →
    l.sum < l.length := by
  intro l
  induction l with
  | nil => intro _ h2; rcases h2 with ⟨x, hx, _⟩; cases hx
  | cons a rest ih =>
    intro h1 h2
    have ha : a ≤ 1 := h1 a (List.mem_cons_self a rest)
    rcases h2 with ⟨x, hx, hx0⟩
    rcases List.mem_cons.mp hx with h | hmem
    · have hr := sum_le_of_bounded (fun x hx => h1 x (List.mem_cons_of_mem a hx))
      simp only [List.sum_cons, List.length_cons]
      omega
    · have hr := ih (fun x hx => h1 x (List.mem_cons_of_mem a hx)) ⟨x, hmem, hx0⟩
      simp only [List.sum_cons, List.length_cons]
      omega

/-! ## C3 -/

/-- C3: getRecIDs appends, for each target value in order, the identifier of
every snapshot record (in scan order) whose type, content and derived
fully-qualified name match the endpoint; it succeeds with that identifier
sequence exactly when the collected length equals the number of targets, and
otherwise returns the unresolved-targets error with no identifiers. -/
theorem getRecIDs_spec (zone : String) (records : List NameserverRecord) (ep : Endpoint) :
    getRecIDs zone records ep =
      if (collectIDs zone records ep).length = ep.targets.length then
        Except.ok (collectIDs zone records ep)
      else Except.error ("failed to map all endpoint targets to entries") :=
  getRecIDs_eq zone records ep

/-! ## C4 -/

/-- Endpoint with two targets used in the C4 analysis. -/
def ep4 : Endpoint := ⟨"www.example.com", "A", 300, ["1.1.1.1", "2.2.2.2"]⟩

/-- Snapshot holding two duplicate records for the first target of ep4 and
none for the second. -/
def recs4 : List NameserverRecord :=
  [⟨1, "www", "A", "1.1.1.1", 300, 0⟩, ⟨2, "www", "A", "1.1.1.1", 300, 0⟩]

/-- Snapshot holding one record for the first target of ep4 and none for the
second. -/
def recs4b : List NameserverRecord := [⟨1, "www", "A", "1.1.1.1", 300, 0⟩]

/-- C4 counterexample: the target 2.2.2.2 of ep4 has no matching record in
recs4, yet getRecIDs succeeds, because the duplicate matches of the first
target make the collected length equal the target count. -/
theorem getRecIDs_duplicate_mask :
    ("2.2.2.2" ∈ ep4.targets ∧
      recs4.filter (recMatches "example.com" ep4 "2.2.2.2") = []) ∧
    getRecIDs "example.com" recs4 ep4 = Except.ok [1, 2] := by
  decide

/-- C4 amended: getRecIDs fails with the unresolved-targets error whenever
some target has no matching record, provided every target matches at most one
record (without that proviso, duplicate matches can offset the missing target
and mask the mismatch). -/
theorem getRecIDs_unresolved (zone : String) (records : List NameserverRecord)
    (ep : Endpoint)
    (hone : ∀ target ∈ ep.targets, (records.filter (recMatches zone ep target)).length ≤ 1)
    (hmiss : ∃ target ∈ ep.targets, records.filter (recMatches zone ep target) = []) :
    getRecIDs zone records ep =
      Except.error ("failed to map all endpoint targets to entries") := by
  rw [getRecIDs_eq]
  have hlt : (collectIDs zone records ep).length < ep.targets.length := by
    unfold collectIDs
    rw [List.length_flatten, List.map_map]
    have hcomp :
        (List.length ∘ fun target =>
          (records.filter (recMatches zone ep target)).map NameserverRecord.id)
        = fun target => (records.filter (recMatches zone ep target)).length := by
      funext target
      simp
    rw [hcomp]
    have h1 : ∀ x ∈ ep.targets.map
        (fun target => (records.filter (recMatches zone ep target)).length), x ≤ 1 := by
      intro x hx
      rcases List.mem_map.mp hx with ⟨target, hmem, rfl⟩
      exact hone target hmem
    have h2 : ∃ x ∈ ep.targets.map
        (fun target => (records.filter (recMatches zone ep target)).length), x = 0 := by
      rcases hmiss with ⟨target, hmem, hnil⟩
      exact ⟨(records.filter (recMatches zone ep target)).length,
        List.mem_map.mpr ⟨target, hmem, rfl⟩, by rw [hnil]; rfl⟩
    have := sum_lt_of_bounded h1 h2
    simpa using this
  rw [if_neg (Nat.ne_of_lt hlt)]

/-- Witness for the amended C4 theorem at a concrete input. -/
theorem getRecIDs_unresolved_w :
    getRecIDs "example.com" recs4b ep4 =
      Except.error ("failed to map all endpoint targets to entries") :=
  getRecIDs_unresolved "example.com" recs4b ep4 (by decide) (by decide)

/-! ## C2 -/

theorem zoneStep_monotone (name : String) :
    ∀ (zones : List String) (m : String) (f : Bool),
      m.length ≤ (zones.foldl (zoneStep name) (m, f)).1.length := by
  intro zones
  induction zones with
  | nil => intro m f; simp
  | cons a rest ih =>
    intro m f
    rw [List.foldl_cons]
    by_cases h : strEndsWith name a = true ∧ m.length < a.length
    · have := ih a true
      rw [zoneStep, if_pos h]
      omega
    · rw [zoneStep, if_neg h]
      exact ih m f

theorem zoneStep_max (name : String) :
    ∀ (zones : List String) (m : String) (f : Bool),
      ∀ z ∈ zones, strEndsWith name z = true →
        z.length ≤ (zones.foldl (zoneStep name) (m, f)).1.length := by
  intro zones
  induction zones with
  | nil => intro m f z hz; cases hz
  | cons a rest ih =>
    intro m f z hz hsuf
    rw [List.foldl_cons]
    rcases List.mem_cons.mp hz with rfl | hmem
    · by_cases h : strEndsWith name z = true ∧ m.length < z.length
      · rw [zoneStep, if_pos h]
        have := zoneStep_monotone name rest z true
        omega
      · rw [zoneStep, if_neg h]
        have hle : z.length ≤ m.length := by
          rcases Nat.lt_or_ge m.length z.length with hlt | hge
          · exact absurd ⟨hsuf, hlt⟩ h
          · exact hge
        have := zoneStep_monotone name rest m f
        omega
    · by_cases h : strEndsWith name a = true ∧ m.length < a.length
      · rw [zoneStep, if_pos h]
        exact ih a true z hmem hsuf
      · rw [zoneStep, if_neg h]
        exact ih m f z hmem hsuf

theorem zoneStep_flagTrue (name : String) :
    ∀ (zones : List String) (m : String),
      (zones.foldl (zoneStep name) (m, true)).2 = true := by
  intro zones
  induction zones with
  | nil => intro m; rfl
  | cons a rest ih =>
    intro m
    rw [List.foldl_cons]
    by_cases h : strEndsWith name a = true ∧ m.length < a.length
    · rw [zoneStep, if_pos h]
      exact ih a
    · rw [zoneStep, if_neg h]
      exact ih m

theorem zoneStep_ok (name : String) (allZones : List String) :
    ∀ (zones : List String) (m : String) (f : Bool),
      zones ⊆ allZones →
      (f = true → strEndsWith name m = true ∧ 0 < m.length ∧ m ∈ allZones) →
      (zones.foldl (zoneStep name) (m, f)).2 = true →
      strEndsWith name (zones.foldl (zoneStep name) (m, f)).1 = true ∧
        0 < (zones.foldl (zoneStep name) (m, f)).1.length ∧
        (zones.foldl (zoneStep name) (m, f)).1 ∈ allZones := by
  intro zones
  induction zones with
  | nil =>
    intro m f _ hacc hflag
    exact hacc hflag
  | cons a rest ih =>
    intro m f hsub hacc hflag
    rw [List.foldl_cons] at hflag ⊢
    by_cases h : strEndsWith name a = true ∧ m.length < a.length
    · rw [zoneStep, if_pos h] at hflag ⊢
      refine ih a true (fun z hz => hsub (List.mem_cons_of_mem a hz)) ?_ hflag
      intro _
      exact ⟨h.1, by omega, hsub (List.mem_cons_self a rest)⟩
    · rw [zoneStep, if_neg h] at hflag ⊢
      exact ih m f (fun z hz => hsub (List.mem_cons_of_mem a hz)) hacc hflag

theorem zoneStep_flagFalse (name : String) :
    ∀ (zones : List String) (m : String) (f : Bool),
      (zones.foldl (zoneStep name) (m, f)).2 = false ↔
        (f = false ∧ ∀ z ∈ zones, ¬(strEndsWith name z = true ∧ m.length < z.length)) := by
  intro zones
  induction zones with
  | nil => intro m f; simp
  | cons a rest ih =>
    intro m f
    rw [List.foldl_cons]
    by_cases h : strEndsWith name a = true ∧ m.length < a.length
    · rw [zoneStep, if_pos h]
      constructor
      · intro hfalse
        rw [zoneStep_flagTrue name rest a] at hfalse
        cases hfalse
      · intro ⟨_, hall⟩
        exact absurd h (hall a (List.mem_cons_self a rest))
    · rw [zoneStep, if_neg h]
      rw [ih m f]
      constructor
      · intro ⟨hf, hall⟩
        refine ⟨hf, fun z hz => ?_⟩
        rcases List.mem_cons.mp hz with rfl | hmem
        · exact h
        · exact hall z hmem
      · intro ⟨hf, hall⟩
        exact ⟨hf, fun z hz => hall z (List.mem_cons_of_mem a hz)⟩

theorem string_ne_empty_iff (z : String) : z ≠ "" ↔ 0 < z.length := by
  have hdata : (z = "") ↔ (z.data = []) := by
    constructor
    · intro h; rw [h]
    · intro h; cases z; cases h; rfl
  have hlen : z.length = z.data.length := rfl
  rw [Ne, hdata, hlen, Nat.pos_iff_ne_zero, Ne, List.length_eq_zero]

/-- C2 counterexample: with the zone set consisting of the empty string, the
empty string is a suffix of the name a, yet getZone reports the no-matching-
zone error, because the fold never accepts a zone of length zero. -/
theorem getZone_empty_zone_cex :
    strEndsWith "a" "" = true ∧ ("" : String) ∈ [""] ∧
    getZone [""] ⟨"a", "A", 300, []⟩ =
      Except.error ("unable find matching zone for the endpoint a") := by
  decide

/-- C2 amended: getZone returns an element of the zone list that is a
non-empty suffix of the endpoint's DNS name and has the greatest length among
all suffix matches, and it returns the no-matching-zone error exactly when no
non-empty element of the list is a suffix of the name (an empty zone name is
never matched). -/
theorem getZone_longest (zones : List String) (ep : Endpoint) :
    (∀ zone, getZone zones ep = Except.ok zone →
        zone ∈ zones ∧ strEndsWith ep.dnsName zone = true ∧ zone ≠ "" ∧
        ∀ z ∈ zones, strEndsWith ep.dnsName z = true → z.length ≤ zone.length) ∧
    ((∃ e, getZone zones ep = Except.error e) ↔
      ¬ ∃ z ∈ zones, z ≠ "" ∧ strEndsWith ep.dnsName z = true) := by
  constructor
  · intro zone hok
    unfold getZone at hok
    by_cases hflag : (zones.foldl (zoneStep ep.dnsName) ("", false)).2 = true
    · rw [if_pos hflag] at hok
      cases hok
      have hmain := zoneStep_ok ep.dnsName zones zones "" false
        (fun z hz => hz) (by intro h; cases h) hflag
      refine ⟨hmain.2.2, hmain.1, (string_ne_empty_iff _).mpr hmain.2.1, ?_⟩
      exact fun z hz hsuf => zoneStep_max ep.dnsName zones "" false z hz hsuf
    · rw [if_neg hflag] at hok
      cases hok
  · unfold getZone
    by_cases hflag : (zones.foldl (zoneStep ep.dnsName) ("", false)).2 = true
    · rw [if_pos hflag]
      have hmain := zoneStep_ok ep.dnsName zones zones "" false
        (fun z hz => hz) (by intro h; cases h) hflag
      constructor
      · intro ⟨e, he⟩; cases he
      · intro hno
        exact absurd ⟨_, hmain.2.2, (string_ne_empty_iff _).mpr hmain.2.1, hmain.1⟩ hno
    · rw [if_neg hflag]
      have hchar := (zoneStep_flagFalse ep.dnsName zones "" false).mp
        (Bool.eq_false_iff.mpr hflag)
      constructor
      · intro _
        intro ⟨z, hz, hne, hsuf⟩
        have hlen : (0 : Nat) < z.length := (string_ne_empty_iff z).mp hne
        exact hchar.2 z hz ⟨hsuf, hlen⟩
      · intro _
        exact ⟨_, rfl⟩

/-! ## C1 and C6 -/

theorem alignLoop_map {f : Nat → Option Call} {g : Nat → Call} :
    ∀ (k j : Nat), (∀ i, i < k → f (j + i) = some (g (j + i))) →
      alignLoop f j k = ((List.range' j k).map g, false) := by
  intro k
  induction k with
  | zero => intro j _; simp [alignLoop]
  | succ k ih =>
    intro j h
    have h0 : f j = some (g j) := by
      have := h 0 (Nat.succ_pos k)
      simpa using this
    have hrest : alignLoop f (j + 1) k = ((List.range' (j + 1) k).map g, false) := by
      refine ih (j + 1) (fun i hi => ?_)
      have := h (i + 1) (by omega)
      have harith : j + (i + 1) = j + 1 + i := by omega
      rw [harith] at this
      exact this
    rw [alignLoop, h0, hrest, List.range'_succ]
    rfl

/-- Alignment calls issued at one position as the specification words them:
delete the j-th located record when the new targets end before j, create with
the new endpoint's TTL when the old targets end before j, and otherwise
update the j-th located record with the new content but the old TTL. -/
def specAlignCall (zone name : String) (oldEp newEp : Endpoint) (recIDs : List Int)
    (j : Nat) : Call :=
  if newEp.targets.length ≤ j then
    Call.deleteRecord (recIDs.getD j 0)
  else if oldEp.targets.length ≤ j then
    Call.createRecord
      ⟨zone, name, newEp.recordType, newEp.recordTTL, newEp.targets.getD j "", 0⟩
  else
    Call.updateRecord (recIDs.getD j 0)
      ⟨zone, name, newEp.recordType, oldEp.recordTTL, newEp.targets.getD j "", 0⟩

theorem alignRun_eq (zone name : String) (oldEp newEp : Endpoint) (recIDs : List Int)
    (h : recIDs.length = oldEp.targets.length) :
    alignRun zone name oldEp newEp recIDs =
      ((List.range (maxLen oldEp newEp recIDs)).map
        (specAlignCall zone name oldEp newEp recIDs), false) := by
  unfold alignRun
  rw [List.range_eq_range']
  refine alignLoop_map (maxLen oldEp newEp recIDs) 0 (fun i hi => ?_)
  simp only [Nat.zero_add]
  have hmax : maxLen oldEp newEp recIDs =
      max oldEp.targets.length newEp.targets.length := by
    unfold maxLen
    rw [h]
    have h1 : oldEp.targets.length ≤ max oldEp.targets.length newEp.targets.length :=
      Nat.le_max_left _ _
    omega
  rw [hmax] at hi
  unfold alignStep specAlignCall
  by_cases hnew : newEp.targets.length ≤ i
  · have hlt : i < recIDs.length := by omega
    rw [if_pos hnew, if_pos hnew, List.getElem?_eq_getElem hlt,
      List.getD_eq_getElem recIDs 0 hlt]
    rfl
  · by_cases hold : oldEp.targets.length ≤ i
    · rw [if_neg hnew, if_neg hnew, if_pos hold, if_pos hold]
    · have hlt : i < recIDs.length := by omega
      rw [if_neg hnew, if_neg hnew, if_neg hold, if_neg hold,
        List.getElem?_eq_getElem hlt, List.getD_eq_getElem recIDs 0 hlt]
      rfl

/-- C1: for an update pair whose zone resolves (so that the located record
ids are index-aligned with the old targets), the alignment loop iterates j
from 0 to the maximum of the three lengths minus one and issues, per
position: a delete of the j-th located record when j is past the new targets,
a create carrying the new endpoint's type, TTL, relative name and j-th target
when j is past the old targets, and otherwise an update of the j-th located
record carrying the new endpoint's type, relative name and j-th target but
the old endpoint's TTL. -/
theorem alignRun_spec (zone name : String) (oldEp newEp : Endpoint) (recIDs : List Int)
    (h : recIDs.length = oldEp.targets.length) :
    alignRun zone name oldEp newEp recIDs =
      ((List.range (maxLen oldEp newEp recIDs)).map
        (specAlignCall zone name oldEp newEp recIDs), false) :=
  alignRun_eq zone name oldEp newEp recIDs h

/-- Witness for C1: the specification's own grow example, old targets
[1.1.1.1] with record id 7 and new targets [1.1.1.1, 2.2.2.2]: position 0
updates record 7 keeping the old TTL 300, position 1 creates with the new
TTL 600. -/
theorem alignRun_spec_w :
    alignRun "example.com" "www"
      ⟨"www.example.com", "A", 300, ["1.1.1.1"]⟩
      ⟨"www.example.com", "A", 600, ["1.1.1.1", "2.2.2.2"]⟩ [7] =
      ([Call.updateRecord 7 ⟨"example.com", "www", "A", 300, "1.1.1.1", 0⟩,
        Call.createRecord ⟨"example.com", "www", "A", 600, "2.2.2.2", 0⟩], false) := by
  rw [alignRun_spec "example.com" "www"
    ⟨"www.example.com", "A", 300, ["1.1.1.1"]⟩
    ⟨"www.example.com", "A", 600, ["1.1.1.1", "2.2.2.2"]⟩ [7] (by decide)]
  decide

/-- C6 counterexample: when the Record Locator failed (recIDs is empty) and
the old endpoint still has targets, the alignment loop's record-id access is
out of bounds at the first position: the run panics (and issues nothing)
instead of completing all positions. -/
theorem alignRun_oob_cex :
    alignRun "example.com" "www"
      ⟨"www.example.com", "A", 300, ["1.1.1.1", "2.2.2.2"]⟩
      ⟨"www.example.com", "A", 300, ["1.1.1.1"]⟩ [] = ([], true) := by
  decide

/-- C6 amended: the alignment loop's access to the located record ids is in
bounds whenever the Record Locator succeeded (the id list is then
index-aligned with the old targets) and the loop completes all positions; but
when the locator failed (empty id list) while the old endpoint has at least
one target, the access is out of bounds and the loop aborts as a panic. -/
theorem alignRun_bounds (zone name : String) (oldEp newEp : Endpoint)
    (recIDs : List Int) :
    (recIDs.length = oldEp.targets.length →
      (alignRun zone name oldEp newEp recIDs).2 = false) ∧
    (recIDs = [] → oldEp.targets ≠ [] →
      (alignRun zone name oldEp newEp recIDs).2 = true) := by
  constructor
  · intro h
    rw [alignRun_eq zone name oldEp newEp recIDs h]
  · intro hnil hne
    subst hnil
    have holdpos : 0 < oldEp.targets.length := List.length_pos.mpr hne
    have hf0 : alignStep zone name oldEp newEp [] 0 = none := by
      unfold alignStep
      by_cases hnew : newEp.targets.length ≤ 0
      · simp [hnew]
      · have hold : ¬(oldEp.targets.length ≤ 0) := by omega
        simp [hnew, hold]
    have hpos : 0 < maxLen oldEp newEp [] := by
      unfold maxLen
      have h1 : oldEp.targets.length ≤ max oldEp.targets.length newEp.targets.length :=
        Nat.le_max_left _ _
      omega
    unfold alignRun
    cases hmax : maxLen oldEp newEp [] with
    | zero => rw [hmax] at hpos; cases hpos
    | succ k =>
      rw [alignLoop, hf0]

/-- Witness for the amended C6 theorem: a locator failure with one old target
and no new targets panics, while an aligned id list completes. -/
theorem alignRun_bounds_w :
    (alignRun "example.com" "www"
      ⟨"www.example.com", "A", 300, ["1.1.1.1"]⟩
      ⟨"www.example.com", "A", 300, []⟩ []).2 = true :=
  (alignRun_bounds "example.com" "www"
    ⟨"www.example.com", "A", 300, ["1.1.1.1"]⟩
    ⟨"www.example.com", "A", 300, []⟩ []).2 rfl (by decide)

/-! ## C5 -/

/-- Oracle with a single zone whose snapshot holds one apex record (empty
relative name). -/
def c5 : Client :=
  ⟨true, some ["example.com"],
   fun zone => if zone = "example.com" then some [⟨1, "", "A", "1.2.3.4", 300, 0⟩] else none,
   fun _ => true, fun _ _ => true, fun _ => true⟩

/-- C5 evidence: Records lists an apex record of zone example.com under the
fully-qualified name .example.com, a leading dot, because the listing path
dot-joins the relative name unconditionally; the data-model invariant (and
getRecIDs itself) requires the zone name exactly when the relative name is
empty. -/
theorem Records_apex_leading_dot :
    (Records c5).2 = Except.ok [⟨".example.com", "A", 300, ["1.2.3.4"]⟩] ∧
    (".example.com" : String) ≠ "example.com" := by
  decide

/-! ## C9 -/

theorem trimSuffix_dot (r zone : String) :
    trimSuffix (r ++ "." ++ zone) ("." ++ zone) = r := by
  unfold trimSuffix
  have hdata : (r ++ "." ++ zone).data = r.data ++ ("." ++ zone).data := by
    rw [String.data_append, String.data_append, String.data_append, List.append_assoc]
  have hsuf : ("." ++ zone).data.isSuffixOf (r ++ "." ++ zone).data = true := by
    rw [List.isSuffixOf_iff_suffix, hdata]
    exact List.suffix_append r.data ("." ++ zone).data
  rw [if_pos hsuf, hdata]
  have hlen : (r.data ++ ("." ++ zone).data).length - ("." ++ zone).data.length
      = r.data.length := by
    rw [List.length_append]
    omega
  rw [hlen, List.take_left]

theorem relativeName_append (r zone : String) :
    relativeName (r ++ "." ++ zone) zone = r := by
  unfold relativeName
  have hne : r ++ "." ++ zone ≠ zone := by
    intro h
    have hlen : (r ++ "." ++ zone).data.length = zone.data.length := by rw [h]
    rw [String.data_append, String.data_append, List.length_append,
      List.length_append] at hlen
    have hdot : (".").data.length = 1 := rfl
    omega
  rw [if_neg hne, trimSuffix_dot]

/-- C9: for an endpoint whose zone resolves, the create phase issues exactly
one create call per target value, in target order, carrying that zone, the
endpoint's record type and TTL, the target as content and the computed
relative name; the issued calls do not depend on any call's outcome (a failed
create does not stop the remaining targets) and the accumulated failure count
is exactly the number of failing targets.  The relative name is empty when
the DNS name equals the zone and is the DNS name with the zone suffix and its
preceding dot stripped otherwise. -/
theorem createEp_spec (c : Client) (zones : List String) (ep : Endpoint) (zone : String)
    (h : getZone zones ep = Except.ok zone) :
    createEp c zones ep =
      (ep.targets.map (fun target =>
        Call.createRecord
          ⟨zone, relativeName ep.dnsName zone, ep.recordType, ep.recordTTL, target, 0⟩),
       (ep.targets.filter (fun target =>
        !(c.createOk
          ⟨zone, relativeName ep.dnsName zone, ep.recordType, ep.recordTTL, target, 0⟩))).length) ∧
    (ep.dnsName = zone → relativeName ep.dnsName zone = "") ∧
    (∀ r, ep.dnsName = r ++ "." ++ zone → relativeName ep.dnsName zone = r) := by
  refine ⟨?_, ?_, ?_⟩
  · unfold createEp
    rw [h]
    simp only [List.map_map, List.filter_map, List.length_map]
    rfl
  · intro heq
    unfold relativeName
    rw [if_pos heq]
  · intro r hr
    rw [hr]
    exact relativeName_append r zone

/-- Oracle whose create call fails exactly for the content 5.6.7.8. -/
def c9 : Client :=
  ⟨true, some ["example.com"], fun _ => some [],
   fun request => request.content != "5.6.7.8", fun _ _ => true, fun _ => true⟩

/-- Witness for C9: two targets, the second one failing; both creates are
issued in order and exactly one failure is counted. -/
theorem createEp_spec_w :
    createEp c9 ["example.com"] ⟨"www.example.com", "A", 300, ["1.2.3.4", "5.6.7.8"]⟩ =
      ([Call.createRecord ⟨"example.com", "www", "A", 300, "1.2.3.4", 0⟩,
        Call.createRecord ⟨"example.com", "www", "A", 300, "5.6.7.8", 0⟩], 1) := by
  rw [(createEp_spec c9 ["example.com"]
    ⟨"www.example.com", "A", 300, ["1.2.3.4", "5.6.7.8"]⟩ "example.com" rfl).1]
  decide

/-! ## C10 -/

/-- C10: an all-empty change set makes ApplyChanges return success at once
with no backend interaction whatsoever, whatever the oracle would have
answered: no login, no zone listing, no fetch and no mutation. -/
theorem ApplyChanges_empty (c : Client) :
    ApplyChanges c ⟨[], [], [], []⟩ = ([], some (Except.ok ())) := rfl


/-! ## C7 -/

theorem cacheOk_nil (c : Client) : CacheOk c ([] : Cache) := by
  intro z rs h
  simp [cacheFind] at h

theorem cacheOk_cons {c : Client} {cache : Cache} (h : CacheOk c cache)
    {zone : String} {records : List NameserverRecord}
    (hz : c.recordsRes zone = some records) :
    CacheOk c ((zone, records) :: cache) := by
  intro z rs hfind
  simp only [cacheFind] at hfind
  by_cases hzz : zone = z
  · rw [if_pos hzz] at hfind
    cases hfind
    rw [← hzz]
    exact hz
  · rw [if_neg hzz] at hfind
    exact h z rs hfind

theorem deleteEp_errs (c : Client) (zones : List String) (cache : Cache) (ep : Endpoint)
    (h : CacheOk c cache) :
    (deleteEp c zones cache ep).2.1 = specDeleteErrs c zones ep ∧
    CacheOk c (deleteEp c zones cache ep).2.2 := by
  unfold deleteEp specDeleteErrs
  cases hgz : getZone zones ep with
  | error e => dsimp only; exact ⟨rfl, h⟩
  | ok zone =>
    cases hcf : cacheFind cache zone with
    | some records =>
      have hr : c.recordsRes zone = some records := h zone records hcf
      dsimp only
      rw [hcf, hr]
      exact ⟨rfl, h⟩
    | none =>
      cases hrr : c.recordsRes zone with
      | none =>
        dsimp only
        rw [hcf, hrr]
        exact ⟨rfl, h⟩
      | some records =>
        dsimp only
        rw [hcf, hrr]
        exact ⟨rfl, cacheOk_cons h hrr⟩

theorem deletePhase_errs (c : Client) (zones : List String) :
    ∀ (eps : List Endpoint) (cache : Cache), CacheOk c cache →
      (deletePhase c zones eps cache).2.1 = (eps.map (specDeleteErrs c zones)).sum ∧
      CacheOk c (deletePhase c zones eps cache).2.2 := by
  intro eps
  induction eps with
  | nil => intro cache h; exact ⟨rfl, h⟩
  | cons ep rest ih =>
    intro cache h
    have h1 := deleteEp_errs c zones cache ep h
    have h2 := ih (deleteEp c zones cache ep).2.2 h1.2
    unfold deletePhase
    dsimp only
    refine ⟨?_, h2.2⟩
    rw [h1.1, h2.1, List.map_cons, List.sum_cons]

theorem createPhase_errs (c : Client) (zones : List String) :
    ∀ (eps : List Endpoint),
      (createPhase c zones eps).2 = (eps.map (specCreateErrs c zones)).sum := by
  intro eps
  induction eps with
  | nil => rfl
  | cons ep rest ih =>
    unfold createPhase
    dsimp only
    rw [ih, List.map_cons, List.sum_cons]
    rfl

theorem updatePair_errs (c : Client) (zones : List String) (cache : Cache)
    (oldEp newEp : Endpoint) (h : CacheOk c cache) :
    (updatePair c zones cache oldEp newEp).2.1 = specUpdateErrs c zones oldEp newEp ∧
    CacheOk c (updatePair c zones cache oldEp newEp).2.2.1 := by
  unfold updatePair specUpdateErrs
  cases hgz : getZone zones oldEp with
  | error e => dsimp only; exact ⟨rfl, h⟩
  | ok zone =>
    cases hcf : cacheFind cache zone with
    | some records =>
      have hr : c.recordsRes zone = some records := h zone records hcf
      dsimp only
      rw [hcf, hr]
      exact ⟨rfl, h⟩
    | none =>
      cases hrr : c.recordsRes zone with
      | none =>
        dsimp only
        rw [hcf, hrr]
        exact ⟨rfl, h⟩
      | some records =>
        dsimp only
        rw [hcf, hrr]
        exact ⟨rfl, cacheOk_cons h hrr⟩

theorem updatePhase_errs (c : Client) (zones : List String) :
    ∀ (olds news : List Endpoint) (cache : Cache), CacheOk c cache →
      (updatePhase c zones olds news cache).2.2 = false →
      (updatePhase c zones olds news cache).2.1 =
        ((olds.zip news).map (fun p => specUpdateErrs c zones p.1 p.2)).sum := by
  intro olds
  induction olds with
  | nil => intro news cache _ _; rfl
  | cons oldEp oldRest ih =>
    intro news cache h hp
    cases news with
    | nil =>
      unfold updatePhase at hp
      cases hp
    | cons newEp newRest =>
      have h1 := updatePair_errs c zones cache oldEp newEp h
      by_cases hpan : (updatePair c zones cache oldEp newEp).2.2.2 = true
      · unfold updatePhase at hp
        rw [if_pos hpan] at hp
        cases hp
      · unfold updatePhase at hp ⊢
        rw [if_neg hpan] at hp ⊢
        dsimp only at hp ⊢
        have h2 := ih newRest (updatePair c zones cache oldEp newEp).2.2.1 h1.2 hp
        rw [h1.1, h2, List.zip_cons_cons, List.map_cons, List.sum_cons]

/-- Oracle whose create calls all fail. -/
def c7c : Client :=
  ⟨true, some ["example.com"], fun _ => some [],
   fun _ => false, fun _ _ => true, fun _ => true⟩

/-- Change set with a single create endpoint carrying one target. -/
def ch7 : Changes := ⟨[⟨"www.example.com", "A", 300, ["1.1.1.1"]⟩], [], [], []⟩

/-- C7: with the change set non-empty, login and zone listing succeeding and
the run completing (no panic), ApplyChanges succeeds exactly when no
per-endpoint or per-operation step of any phase failed, and otherwise fails
with an aggregate error carrying the exact count of accumulated failures;
the count is the independent sum over all endpoints and operations of every
phase, so no individual failure suppresses the accounting of sibling
operations or later phases. -/
theorem ApplyChanges_aggregate (c : Client) (changes : Changes) (zones : List String)
    (hc : hasChanges changes = true) (hl : c.loginOk = true)
    (hz : c.zonesRes = some zones)
    (hp : (ApplyChanges c changes).2 ≠ none) :
    ((ApplyChanges c changes).2 = some (Except.ok ()) ↔
      specErrCount c zones changes = 0) ∧
    (0 < specErrCount c zones changes →
      (ApplyChanges c changes).2 =
        some (Except.error ("encountered " ++ toString (specErrCount c zones changes) ++
          " errors while applying changes"))) := by
  have hd := deletePhase_errs c zones changes.delete [] (cacheOk_nil c)
  have hcr := createPhase_errs c zones changes.create
  unfold ApplyChanges at hp ⊢
  simp only [hc, hl, hz, if_true] at hp ⊢
  by_cases hpan : (updatePhase c zones changes.updateOld changes.updateNew []).2.2 = true
  · rw [if_pos hpan] at hp
    exact absurd rfl hp
  · have hpan' : (updatePhase c zones changes.updateOld changes.updateNew []).2.2 = false :=
      Bool.eq_false_iff.mpr hpan
    have hu := updatePhase_errs c zones changes.updateOld changes.updateNew []
      (cacheOk_nil c) hpan'
    rw [if_neg hpan]
    have hn : (deletePhase c zones changes.delete []).2.1 +
        (createPhase c zones changes.create).2 +
        (updatePhase c zones changes.updateOld changes.updateNew []).2.1 =
        specErrCount c zones changes := by
      rw [hd.1, hcr, hu]
      rfl
    rw [hn]
    constructor
    · constructor
      · intro hok
        by_cases h0 : 0 < specErrCount c zones changes
        · rw [if_pos h0] at hok
          exact Except.noConfusion (Option.some.inj hok)
        · omega
      · intro h0
        rw [h0]
        simp
    · intro h0
      rw [if_pos h0]

/-- Witness for C7: one failing create yields the aggregate error carrying
the count one. -/
theorem ApplyChanges_aggregate_w :
    0 < specErrCount c7c ["example.com"] ch7 ∧
    (ApplyChanges c7c ch7).2 =
      some (Except.error ("encountered " ++
        toString (specErrCount c7c ["example.com"] ch7) ++
        " errors while applying changes")) :=
  ⟨by decide, (ApplyChanges_aggregate c7c ch7 ["example.com"] rfl rfl rfl (by decide)).2
    (by decide)⟩

/-! ## C8 -/

theorem countFetch_cons (z : String) (call : Call) (calls : List Call) :
    countFetch z (call :: calls) =
      (if call = Call.getRecords z then 1 else 0) + countFetch z calls := by
  unfold countFetch
  by_cases h : call = Call.getRecords z
  · simp [List.filter_cons, h, Nat.add_comm]
  · simp [List.filter_cons, h]

theorem countFetch_append (z : String) (calls1 calls2 : List Call) :
    countFetch z (calls1 ++ calls2) = countFetch z calls1 + countFetch z calls2 := by
  unfold countFetch
  rw [List.filter_append, List.length_append]

theorem countFetch_map_delete (z : String) (recIDs : List Int) :
    countFetch z (recIDs.map Call.deleteRecord) = 0 := by
  induction recIDs with
  | nil => rfl
  | cons recID rest ih =>
    rw [List.map_cons, countFetch_cons, ih]
    simp

theorem countFetch_map_create (z : String) (requests : List NameserverRecordRequest) :
    countFetch z (requests.map Call.createRecord) = 0 := by
  induction requests with
  | nil => rfl
  | cons request rest ih =>
    rw [List.map_cons, countFetch_cons, ih]
    simp

theorem countFetch_deleteWith (c : Client) (zone : String)
    (records : List NameserverRecord) (ep : Endpoint) (z : String) :
    countFetch z (deleteWith c zone records ep).1 = 0 := by
  unfold deleteWith
  cases getRecIDs zone records ep with
  | error e => rfl
  | ok recIDs => exact countFetch_map_delete z recIDs

theorem countFetch_createEp (c : Client) (zones : List String) (ep : Endpoint)
    (z : String) : countFetch z (createEp c zones ep).1 = 0 := by
  unfold createEp
  cases getZone zones ep with
  | error e => rfl
  | ok zone => exact countFetch_map_create z _

theorem countFetch_createPhase (c : Client) (zones : List String) (z : String) :
    ∀ (eps : List Endpoint), countFetch z (createPhase c zones eps).1 = 0 := by
  intro eps
  induction eps with
  | nil => rfl
  | cons ep rest ih =>
    unfold createPhase
    dsimp only
    rw [countFetch_append, countFetch_createEp, ih]

theorem alignStep_no_fetch (zone name : String) (oldEp newEp : Endpoint)
    (recIDs : List Int) (z : String) (j : Nat) :
    alignStep zone name oldEp newEp recIDs j ≠ some (Call.getRecords z) := by
  unfold alignStep
  by_cases hnew : newEp.targets.length ≤ j
  · rw [if_pos hnew]
    intro hcontra
    rcases Option.map_eq_some'.mp hcontra with ⟨a, _, ha⟩
    exact Call.noConfusion ha
  · by_cases hold : oldEp.targets.length ≤ j
    · rw [if_neg hnew, if_pos hold]
      intro hcontra
      exact Call.noConfusion (Option.some.inj hcontra)
    · rw [if_neg hnew, if_neg hold]
      intro hcontra
      rcases Option.map_eq_some'.mp hcontra with ⟨a, _, ha⟩
      exact Call.noConfusion ha

theorem alignLoop_no_fetch (z : String) {f : Nat → Option Call}
    (hf : ∀ j, f j ≠ some (Call.getRecords z)) :
    ∀ (k j : Nat), countFetch z (alignLoop f j k).1 = 0 := by
  intro k
  induction k with
  | zero => intro j; rfl
  | succ k ih =>
    intro j
    unfold alignLoop
    cases hj : f j with
    | none => rfl
    | some call =>
      dsimp only
      rw [countFetch_cons, ih (j + 1)]
      have hne : call ≠ Call.getRecords z := by
        intro hcontra
        rw [hcontra] at hj
        exact hf j hj
      rw [if_neg hne]

theorem countFetch_updatePairWith (c : Client) (zone : String)
    (records : List NameserverRecord) (oldEp newEp : Endpoint) (z : String) :
    countFetch z (updatePairWith c zone records oldEp newEp).1 = 0 := by
  unfold updatePairWith
  dsimp only
  exact alignLoop_no_fetch z
    (alignStep_no_fetch zone (relativeName newEp.dnsName zone) oldEp newEp _ z) _ 0

theorem countFetch_nil (z : String) : countFetch z [] = 0 := rfl

theorem cacheFind_cons_isSome (zone : String) (records : List NameserverRecord)
    (cache : Cache) (z : String) (h : (cacheFind cache z).isSome = true) :
    (cacheFind ((zone, records) :: cache) z).isSome = true := by
  simp only [cacheFind]
  by_cases hz : zone = z
  · rw [if_pos hz]
    rfl
  · rw [if_neg hz]
    exact h

theorem countFetch_single_fetch (zone z : String) :
    countFetch z [Call.getRecords zone] = if zone = z then 1 else 0 := by
  rw [countFetch_cons]
  by_cases h : zone = z
  · simp [h, countFetch_nil]
  · have hne : Call.getRecords zone ≠ Call.getRecords z := by
      intro hcontra
      exact h (Call.getRecords.inj hcontra)
    rw [if_neg hne, if_neg h]
    rfl

theorem deleteEp_fetch_cached (c : Client) (zones : List String) (cache : Cache)
    (ep : Endpoint) (z : String) (hsome : (cacheFind cache z).isSome = true) :
    countFetch z (deleteEp c zones cache ep).1 = 0 ∧
    (cacheFind (deleteEp c zones cache ep).2.2 z).isSome = true := by
  unfold deleteEp
  cases hgz : getZone zones ep with
  | error e => exact ⟨rfl, hsome⟩
  | ok zone =>
    dsimp only
    cases hcf : cacheFind cache zone with
    | some records =>
      dsimp only
      exact ⟨countFetch_deleteWith c zone records ep z, hsome⟩
    | none =>
      have hne : zone ≠ z := by
        intro hcontra
        rw [← hcontra, hcf] at hsome
        cases hsome
      cases hrr : c.recordsRes zone with
      | none =>
        dsimp only
        rw [countFetch_single_fetch, if_neg hne]
        exact ⟨rfl, hsome⟩
      | some records =>
        dsimp only
        rw [countFetch_cons, countFetch_deleteWith]
        have hnc : Call.getRecords zone ≠ Call.getRecords z := by
          intro hcontra
          exact hne (Call.getRecords.inj hcontra)
        rw [if_neg hnc]
        exact ⟨rfl, cacheFind_cons_isSome zone records cache z hsome⟩

theorem deleteEp_fetch_le (c : Client) (zones : List String) (cache : Cache)
    (ep : Endpoint) (z : String) (records0 : List NameserverRecord)
    (hz : c.recordsRes z = some records0) :
    countFetch z (deleteEp c zones cache ep).1 = 0 ∨
    (countFetch z (deleteEp c zones cache ep).1 = 1 ∧
      (cacheFind (deleteEp c zones cache ep).2.2 z).isSome = true) := by
  unfold deleteEp
  cases hgz : getZone zones ep with
  | error e => exact Or.inl rfl
  | ok zone =>
    dsimp only
    cases hcf : cacheFind cache zone with
    | some records =>
      dsimp only
      exact Or.inl (countFetch_deleteWith c zone records ep z)
    | none =>
      cases hrr : c.recordsRes zone with
      | none =>
        have hne : zone ≠ z := by
          intro hcontra
          rw [hcontra, hz] at hrr
          cases hrr
        dsimp only
        rw [countFetch_single_fetch, if_neg hne]
        exact Or.inl rfl
      | some records =>
        dsimp only
        rw [countFetch_cons, countFetch_deleteWith]
        by_cases hzz : zone = z
        · have hc1 : Call.getRecords zone = Call.getRecords z := by rw [hzz]
          rw [if_pos hc1]
          refine Or.inr ⟨rfl, ?_⟩
          simp only [cacheFind]
          rw [if_pos hzz]
          rfl
        · have hnc : Call.getRecords zone ≠ Call.getRecords z := by
            intro hcontra
            exact hzz (Call.getRecords.inj hcontra)
          rw [if_neg hnc]
          exact Or.inl rfl

theorem deletePhase_fetch_cached (c : Client) (zones : List String) (z : String) :
    ∀ (eps : List Endpoint) (cache : Cache), (cacheFind cache z).isSome = true →
      countFetch z (deletePhase c zones eps cache).1 = 0 := by
  intro eps
  induction eps with
  | nil => intro cache _; rfl
  | cons ep rest ih =>
    intro cache hsome
    have h1 := deleteEp_fetch_cached c zones cache ep z hsome
    unfold deletePhase
    dsimp only
    rw [countFetch_append, h1.1, ih (deleteEp c zones cache ep).2.2 h1.2]

theorem deletePhase_fetch_le (c : Client) (zones : List String) (z : String)
    (records0 : List NameserverRecord) (hz : c.recordsRes z = some records0) :
    ∀ (eps : List Endpoint) (cache : Cache),
      countFetch z (deletePhase c zones eps cache).1 ≤ 1 := by
  intro eps
  induction eps with
  | nil => intro cache; exact Nat.zero_le 1
  | cons ep rest ih =>
    intro cache
    unfold deletePhase
    dsimp only
    rw [countFetch_append]
    rcases deleteEp_fetch_le c zones cache ep z records0 hz with h0 | ⟨h1, hcached⟩
    · rw [h0]
      simpa using ih (deleteEp c zones cache ep).2.2
    · rw [h1, deletePhase_fetch_cached c zones z rest (deleteEp c zones cache ep).2.2 hcached]

theorem updatePair_fetch_cached (c : Client) (zones : List String) (cache : Cache)
    (oldEp newEp : Endpoint) (z : String) (hsome : (cacheFind cache z).isSome = true) :
    countFetch z (updatePair c zones cache oldEp newEp).1 = 0 ∧
    (cacheFind (updatePair c zones cache oldEp newEp).2.2.1 z).isSome = true := by
  unfold updatePair
  cases hgz : getZone zones oldEp with
  | error e => exact ⟨rfl, hsome⟩
  | ok zone =>
    dsimp only
    cases hcf : cacheFind cache zone with
    | some records =>
      dsimp only
      exact ⟨countFetch_updatePairWith c zone records oldEp newEp z, hsome⟩
    | none =>
      have hne : zone ≠ z := by
        intro hcontra
        rw [← hcontra, hcf] at hsome
        cases hsome
      cases hrr : c.recordsRes zone with
      | none =>
        dsimp only
        rw [countFetch_single_fetch, if_neg hne]
        exact ⟨rfl, hsome⟩
      | some records =>
        dsimp only
        rw [countFetch_cons, countFetch_updatePairWith]
        have hnc : Call.getRecords zone ≠ Call.getRecords z := by
          intro hcontra
          exact hne (Call.getRecords.inj hcontra)
        rw [if_neg hnc]
        exact ⟨rfl, cacheFind_cons_isSome zone records cache z hsome⟩

theorem updatePair_fetch_le (c : Client) (zones : List String) (cache : Cache)
    (oldEp newEp : Endpoint) (z : String) (records0 : List NameserverRecord)
    (hz : c.recordsRes z = some records0) :
    countFetch z (updatePair c zones cache oldEp newEp).1 = 0 ∨
    (countFetch z (updatePair c zones cache oldEp newEp).1 = 1 ∧
      (cacheFind (updatePair c zones cache oldEp newEp).2.2.1 z).isSome = true) := by
  unfold updatePair
  cases hgz : getZone zones oldEp with
  | error e => exact Or.inl rfl
  | ok zone =>
    dsimp only
    cases hcf : cacheFind cache zone with
    | some records =>
      dsimp only
      exact Or.inl (countFetch_updatePairWith c zone records oldEp newEp z)
    | none =>
      cases hrr : c.recordsRes zone with
      | none =>
        have hne : zone ≠ z := by
          intro hcontra
          rw [hcontra, hz] at hrr
          cases hrr
        dsimp only
        rw [countFetch_single_fetch, if_neg hne]
        exact Or.inl rfl
      | some records =>
        dsimp only
        rw [countFetch_cons, countFetch_updatePairWith]
        by_cases hzz : zone = z
        · have hc1 : Call.getRecords zone = Call.getRecords z := by rw [hzz]
          rw [if_pos hc1]
          refine Or.inr ⟨rfl, ?_⟩
          simp only [cacheFind]
          rw [if_pos hzz]
          rfl
        · have hnc : Call.getRecords zone ≠ Call.getRecords z := by
            intro hcontra
            exact hzz (Call.getRecords.inj hcontra)
          rw [if_neg hnc]
          exact Or.inl rfl

theorem updatePhase_fetch_cached (c : Client) (zones : List String) (z : String) :
    ∀ (olds news : List Endpoint) (cache : Cache), (cacheFind cache z).isSome = true →
      countFetch z (updatePhase c zones olds news cache).1 = 0 := by
  intro olds
  induction olds with
  | nil => intro news cache _; rfl
  | cons oldEp oldRest ih =>
    intro news cache hsome
    cases news with
    | nil => rfl
    | cons newEp newRest =>
      have h1 := updatePair_fetch_cached c zones cache oldEp newEp z hsome
      unfold updatePhase
      by_cases hpan : (updatePair c zones cache oldEp newEp).2.2.2 = true
      · rw [if_pos hpan]
        exact h1.1
      · rw [if_neg hpan]
        dsimp only
        rw [countFetch_append, h1.1,
          ih newRest (updatePair c zones cache oldEp newEp).2.2.1 h1.2]

theorem updatePhase_fetch_le (c : Client) (zones : List String) (z : String)
    (records0 : List NameserverRecord) (hz : c.recordsRes z = some records0) :
    ∀ (olds news : List Endpoint) (cache : Cache),
      countFetch z (updatePhase c zones olds news cache).1 ≤ 1 := by
  intro olds
  induction olds with
  | nil => intro news cache; exact Nat.zero_le 1
  | cons oldEp oldRest ih =>
    intro news cache
    cases news with
    | nil => exact Nat.zero_le 1
    | cons newEp newRest =>
      unfold updatePhase
      by_cases hpan : (updatePair c zones cache oldEp newEp).2.2.2 = true
      · rw [if_pos hpan]
        rcases updatePair_fetch_le c zones cache oldEp newEp z records0 hz with h0 | ⟨h1, _⟩
        · rw [h0]
          exact Nat.zero_le 1
        · rw [h1]
      · rw [if_neg hpan]
        dsimp only
        rw [countFetch_append]
        rcases updatePair_fetch_le c zones cache oldEp newEp z records0 hz with h0 | ⟨h1, hcached⟩
        · rw [h0]
          simpa using ih newRest (updatePair c zones cache oldEp newEp).2.2.1
        · rw [h1, updatePhase_fetch_cached c zones z oldRest newRest
            (updatePair c zones cache oldEp newEp).2.2.1 hcached]

/-- Oracle whose record fetches always fail. -/
def c8 : Client :=
  ⟨true, some ["example.com"], fun _ => none,
   fun _ => true, fun _ _ => true, fun _ => true⟩

/-- Two delete endpoints that resolve to the same zone. -/
def dels8 : List Endpoint :=
  [⟨"a.example.com", "A", 300, ["1.1.1.1"]⟩, ⟨"b.example.com", "A", 300, ["1.1.1.1"]⟩]

/-- C8 counterexample: when a zone's fetch fails, the failure is not cached,
so a second endpoint of the same zone in the same phase fetches again: the
delete phase issues two getRecords calls for one zone, contradicting the
claimed at-most-one fetch per zone per phase. -/
theorem deletePhase_two_fetches_cex :
    countFetch "example.com" (deletePhase c8 ["example.com"] dels8 []).1 = 2 := by
  decide

/-- C8 amended: within one ApplyChanges call the trace is the delete-phase
calls, then the create-phase calls, then the update-phase calls (so every
delete-phase mutation precedes every create-phase mutation, which precede
every update-phase mutation), bracketed by login, zone listing and logout;
the create phase performs no record fetch; and for every zone whose fetch
succeeds, each of the delete and update phases fetches it at most once, each
starting from its own empty cache (a zone whose fetch fails is not cached and
may be re-fetched within a phase). -/
theorem ApplyChanges_phase_order (c : Client) (changes : Changes) (zones : List String)
    (hc : hasChanges changes = true) (hl : c.loginOk = true)
    (hz : c.zonesRes = some zones) :
    ((ApplyChanges c changes).1 =
      Call.login :: Call.getZones ::
        ((deletePhase c zones changes.delete []).1 ++
         (createPhase c zones changes.create).1 ++
         (updatePhase c zones changes.updateOld changes.updateNew []).1) ++
        [Call.logout]) ∧
    (∀ zone, countFetch zone (createPhase c zones changes.create).1 = 0) ∧
    (∀ zone records, c.recordsRes zone = some records →
      countFetch zone (deletePhase c zones changes.delete []).1 ≤ 1 ∧
      countFetch zone (updatePhase c zones changes.updateOld changes.updateNew []).1 ≤ 1) := by
  refine ⟨?_, ?_, ?_⟩
  · unfold ApplyChanges
    simp only [hc, hl, hz, if_true]
    by_cases hpan :
        (updatePhase c zones changes.updateOld changes.updateNew []).2.2 = true
    · rw [if_pos hpan]
    · rw [if_neg hpan]
  · intro zone
    exact countFetch_createPhase c zones zone changes.create
  · intro zone records hrec
    exact ⟨deletePhase_fetch_le c zones zone records hrec changes.delete [],
      updatePhase_fetch_le c zones zone records hrec changes.updateOld
        changes.updateNew []⟩

/-- Oracle for the C8 witness: fetches succeed with an empty snapshot. -/
def c8b : Client :=
  ⟨true, some ["example.com"], fun _ => some [],
   fun _ => true, fun _ _ => true, fun _ => true⟩

/-- Change set for the C8 witness: the two same-zone delete endpoints. -/
def ch8b : Changes := ⟨[], [], [], dels8⟩

/-- Witness for the amended C8 theorem: with a succeeding fetch, two
same-zone delete endpoints cause at most one delete-phase fetch. -/
theorem ApplyChanges_phase_order_w :
    countFetch "example.com" (deletePhase c8b ["example.com"] ch8b.delete []).1 ≤ 1 :=
  ((ApplyChanges_phase_order c8b ch8b ["example.com"] rfl rfl rfl).2.2
    "example.com" [] rfl).1
